import Mathlib

/-!
Verification development for the TeleClaude server core
(server/pty_session.py, server/vscode_manager.py, server/main.py).

The Python source is shallowly embedded: byte strings become lists of
byte values, the PTY engine's replay buffer becomes a list of chunks,
the in-memory dictionaries become association lists, and the operations
of the source become executable Lean functions.  OS-level effects
(os.write, ioctl, killpg, the HTTP client) are represented by explicit
logs of the calls the code would make, and outcomes of external calls
(os.write failing with OSError, process.wait timing out, httpx raising
ConnectError) are supplied as oracle parameters.
-/

/-- Byte chunks read from the PTY master descriptor are modelled as lists
of byte values. -/
abbrev Chunk := List Nat

/-- PTYSession.buffer_max_size: the replay buffer keeps roughly the last
500 KB of output. -/
def bufferMaxSize : Nat := 500000

/-- Total byte size of the replay buffer:
sum(len(b) for b in self.output_buffer). -/
def totalSize (buf : List Chunk) : Nat := (buf.map List.length).sum

/-- The eviction loop of PTYSession._broadcast_output: while the total
size exceeds the cap and the buffer is non-empty, pop whole chunks from
the front. -/
def trimBuffer (cap : Nat) : List Chunk → List Chunk
  | [] => []
  | b :: rest =>
    if cap < totalSize (b :: rest) then trimBuffer cap rest else b :: rest

/-- A connected client as seen by the engine (pty_session.SessionClient),
instrumented with the chunks its send_callback received (in order) and
the catch-up bytes add_client returned to it. -/
structure EClient where
  id : String
  delivered : List Chunk
  history : List Nat
  deriving DecidableEq

/-- The parts of PTYSession state that the replay-buffer and fan-out
claims are about: output_buffer and the clients map (as an association
list in insertion order, the order of a Python dict). -/
structure Engine where
  buffer : List Chunk
  clients : List EClient
  deriving DecidableEq

/-- Atomic events on a PTYSession.  Both _broadcast_output and
add_client/remove_client run under self._lock, so an execution is a
sequence of these events. -/
inductive PtyEvent
  | broadcast (data : Chunk)
  | addClient (id : String)
  | removeClient (id : String)
  deriving DecidableEq

/-- Dict-style insertion for the clients map: self.clients[client.id] =
client replaces an existing entry with the same id, else appends. -/
def setClient (c : EClient) : List EClient → List EClient
  | [] => [c]
  | c' :: rest => if c'.id = c.id then c :: rest else c' :: setClient c rest

/-- PTYSession._broadcast_output: append the chunk to the buffer, evict
whole chunks from the front while over the cap, then invoke every
registered client's send_callback with the same chunk. -/
def broadcastStep (e : Engine) (data : Chunk) : Engine :=
  ⟨trimBuffer bufferMaxSize (e.buffer ++ [data]),
   e.clients.map (fun c => ⟨c.id, c.delivered ++ [data], c.history⟩)⟩

/-- PTYSession.add_client: register the client and return the joined
buffer contents as its catch-up history. -/
def addClientStep (e : Engine) (id : String) : Engine :=
  ⟨e.buffer, setClient ⟨id, [], e.buffer.flatten⟩ e.clients⟩

/-- PTYSession.remove_client: self.clients.pop(client_id, None). -/
def removeClientStep (e : Engine) (id : String) : Engine :=
  ⟨e.buffer, e.clients.filter (fun c => c.id != id)⟩

/-- One atomic engine event. -/
def ptyStep (e : Engine) : PtyEvent → Engine
  | .broadcast d => broadcastStep e d
  | .addClient i => addClientStep e i
  | .removeClient i => removeClientStep e i

/-- A fresh PTYSession: empty buffer, no clients. -/
def initEngine : Engine := ⟨[], []⟩

/-- Run a sequence of engine events from the initial state. -/
def runEngine (tr : List PtyEvent) : Engine := tr.foldl ptyStep initEngine

/-- The chunks broadcast in a trace, in order. -/
def broadcastsOf (tr : List PtyEvent) : List Chunk :=
  tr.filterMap (fun ev => match ev with | .broadcast d => some d | _ => none)

/-- Does an event add or remove the given client id? -/
def touchesClient (id : String) : PtyEvent → Bool
  | .addClient i => i == id
  | .removeClient i => i == id
  | .broadcast _ => false

/-- Look up a registered client by id. -/
def findClient (e : Engine) (id : String) : Option EClient :=
  e.clients.find? (fun c => c.id == id)

/-- Association-list lookup, modelling Python dict.get: first entry with
the key. -/
def alLookup {α : Type} (k : String) (l : List (String × α)) : Option α :=
  (l.find? (fun p => p.1 == k)).map (fun p => p.2)

/-- Association-list insertion, modelling Python dict assignment: replace
the value at an existing key in place, else append. -/
def alSet {α : Type} (k : String) (v : α) : List (String × α) → List (String × α)
  | [] => [(k, v)]
  | p :: rest => if p.1 = k then (k, v) :: rest else p :: alSet k v rest

/-- Association-list deletion, modelling Python del dict[key]. -/
def alRemove {α : Type} (k : String) (l : List (String × α)) : List (String × α) :=
  l.filter (fun p => p.1 != k)

/-- A running code-server instance (vscode_manager.VSCodeInstance).  The
alive flag models process is not None and process.poll() is None; the
timestamp fields of the source are not needed by the port/stop claims and
are omitted. -/
structure VInst where
  sessionId : String
  port : Nat
  workingDir : String
  alive : Bool
  deriving DecidableEq

/-- The VSCodeManager state: the _instances dict. -/
structure VMState where
  instances : List (String × VInst)
  deriving DecidableEq

/-- Failure modes of VSCodeManager.start: RuntimeError when no port in
the fixed range is free, FileNotFoundError when the code-server binary
is not installed. -/
inductive StartErr
  | resourceExhausted
  | binaryNotFound
  deriving DecidableEq

/-- Signals sent by VSCodeManager.stop to the process group. -/
inductive Sig
  | sigterm
  | sigkill
  deriving DecidableEq

/-- VSCodeManager.BASE_PORT. -/
def basePort : Nat := 8766

/-- VSCodeManager.MAX_INSTANCES. -/
def maxInstances : Nat := 10

/-- The fixed port range range(BASE_PORT, BASE_PORT + MAX_INSTANCES),
in ascending order. -/
def portRange : List Nat := (List.range maxInstances).map (fun i => basePort + i)

/-- Ports of every recorded instance (dead ones included), as in
VSCodeManager._find_available_port. -/
def usedPorts (st : VMState) : List Nat := st.instances.map (fun e => e.2.port)

/-- VSCodeManager._find_available_port: first port of the range not used
by any recorded instance; none models the RuntimeError. -/
def findAvailablePort (st : VMState) : Option Nat :=
  portRange.find? (fun p => !((usedPorts st).contains p))

/-- VSCodeManager.get_instance: the recorded instance, filtered to those
whose backing process is still alive. -/
def getInstance (st : VMState) (sid : String) : Option VInst :=
  match alLookup sid st.instances with
  | some inst => if inst.alive then some inst else none
  | none => none

/-- VSCodeManager.start: return a live existing instance unchanged
(touch only refreshes its activity timestamp); otherwise pick a port,
resolve the binary (binFound oracle), spawn, and record the instance. -/
def startV (st : VMState) (sid wd : String) (binFound : Bool) :
    Except StartErr (VInst × VMState) :=
  match getInstance st sid with
  | some inst => .ok (inst, st)
  | none =>
    match findAvailablePort st with
    | none => .error StartErr.resourceExhausted
    | some port =>
      if binFound then
        let inst : VInst := ⟨sid, port, wd, true⟩
        .ok (inst, ⟨alSet sid inst st.instances⟩)
      else .error StartErr.binaryNotFound

/-- VSCodeManager.stop: false when no record exists; otherwise send
SIGTERM to the process group if the process is still running (escalating
to SIGKILL when the graceful wait times out or the group lookup fails —
the gracefulOk oracle), delete the record, and return true. -/
def stopV (st : VMState) (sid : String) (gracefulOk : Bool) :
    Bool × VMState × List Sig :=
  match alLookup sid st.instances with
  | none => (false, st, [])
  | some inst =>
    let sigs := if inst.alive then
        (if gracefulOk then [Sig.sigterm] else [Sig.sigterm, Sig.sigkill])
      else []
    (true, ⟨alRemove sid st.instances⟩, sigs)

/-- Events on the supervisor: a start request, a stop request, or the
backing process exiting on its own. -/
inductive VEv
  | start (sid wd : String) (binFound : Bool)
  | stop (sid : String) (gracefulOk : Bool)
  | procExit (sid : String)
  deriving DecidableEq

/-- State transition for one supervisor event. -/
def vStep (st : VMState) : VEv → VMState
  | .start sid wd bf =>
    match startV st sid wd bf with
    | .ok (_, st') => st'
    | .error _ => st
  | .stop sid g => (stopV st sid g).2.1
  | .procExit sid =>
    ⟨st.instances.map (fun e =>
      if e.1 = sid then (e.1, ⟨e.2.sessionId, e.2.port, e.2.workingDir, false⟩) else e)⟩

/-- Run a sequence of supervisor events from the empty instance map. -/
def runV (tr : List VEv) : VMState := tr.foldl vStep ⟨[]⟩

/-- Recorded instances whose backing process is still alive. -/
def liveInstances (st : VMState) : List (String × VInst) :=
  st.instances.filter (fun e => e.2.alive)

/-- Invariant maintained by the supervisor: record keys are unique, the
recorded ports are pairwise distinct, and every recorded port lies in the
fixed range. -/
def VMInv (st : VMState) : Prop :=
  (st.instances.map (fun e => e.1)).Nodup ∧
  (usedPorts st).Nodup ∧
  ∀ p ∈ usedPorts st, p ∈ portRange

/-- A trace of ten successful starts, filling the whole port range. -/
def fullTrace : List VEv :=
  (List.range maxInstances).map (fun i => VEv.start ("s" ++ toString i) "/w" true)

/-- A PTY session as the registry sees it (pty_session.PTYSession
metadata): working_dir and command are fixed at construction, running is
set by start(). -/
structure SessionRec where
  workingDir : String
  command : List String
  running : Bool
  deriving DecidableEq

/-- The SessionManager singleton state: the _sessions dict and the
_default_session pointer. -/
structure SessionMgr where
  sessions : List (String × SessionRec)
  defaultSession : Option String
  deriving DecidableEq

/-- PTYSession.__init__ command handling: self.command = command or
["claude"] — None and the empty list both fall back to ["claude"]. -/
def normCommand (cmd : Option (List String)) : List String :=
  match cmd with
  | none => ["claude"]
  | some [] => ["claude"]
  | some c => c

/-- SessionManager.get_or_create_session: an existing entry is returned
unchanged (its working_dir and command are not updated); otherwise a new
PTYSession is constructed and started (startOk oracle: pty/fork success)
and recorded, the first-created name becoming the default.  A start
failure raises RuntimeError, modelled as the error case. -/
def getOrCreateSession (m : SessionMgr) (sid wd : String)
    (cmd : Option (List String)) (startOk : Bool) :
    Except String (SessionRec × SessionMgr) :=
  match alLookup sid m.sessions with
  | some s => .ok (s, m)
  | none =>
    if startOk then
      let s : SessionRec := ⟨wd, normCommand cmd, true⟩
      .ok (s, ⟨alSet sid s m.sessions,
        match m.defaultSession with
        | none => some sid
        | some d => some d⟩)
    else .error "Failed to start PTY session"

/-- SessionManager.get_session. -/
def getSession (m : SessionMgr) (sid : String) : Option SessionRec :=
  alLookup sid m.sessions

/-- SessionManager.get_default_session: only consulted when the default
pointer is truthy (a non-empty string). -/
def getDefaultSession (m : SessionMgr) : Option SessionRec :=
  match m.defaultSession with
  | some d => if d = "" then none else alLookup d m.sessions
  | none => none

/-- The session-resolution logic of websocket_terminal (main.py):
sid = session_id or SESSION_NAME (a falsy id, None or the empty string,
falls back to the configured name); look that up; if nothing was found
and no id was given (not session_id), fall back to the registry's
default session and recover its actual id by scanning the sessions dict;
none models the error frame followed by close.  Object identity in the
scan is modelled by value equality. -/
def resolveWsSession (m : SessionMgr) (sessionName : String)
    (sessionId : Option String) : Option (String × SessionRec) :=
  let sid := match sessionId with
    | none => sessionName
    | some s => if s = "" then sessionName else s
  match getSession m sid with
  | some s => some (sid, s)
  | none =>
    if sessionId = none ∨ sessionId = some "" then
      match getDefaultSession m with
      | some s =>
        match m.sessions.find? (fun p => p.2 == s) with
        | some p => some (p.1, s)
        | none => some (sid, s)
      | none => none
    else none

/-- A JSON value as produced by json.loads for the structured text
frames of the terminal WebSocket. -/
inductive Json
  | null
  | bool (b : Bool)
  | num (n : Int)
  | str (s : String)
  | arr (items : List Json)
  | obj (fields : List (String × Json))

/-- Dict lookup on a parsed JSON object: data.get(key). -/
def jsonGet (fields : List (String × Json)) (k : String) : Option Json :=
  alLookup k fields

/-- Dict lookup with default: data.get(key, default). -/
def jsonGetD (fields : List (String × Json)) (k : String) (d : Json) : Json :=
  (jsonGet fields k).getD d

/-- Python equality data.get(key) == "literal": true exactly when the
value is that string. -/
def isStrEq (v : Option Json) (s : String) : Bool :=
  match v with
  | some (Json.str t) => t == s
  | _ => false

/-- What the terminal relay does with one inbound text frame. -/
inductive WsAction
  | resizeCmd (rows cols : Json)
  | writeInput (data : String)
  | ignored
  | fatal

/-- The text-frame branch of websocket_terminal (main.py): json.loads
failing with JSONDecodeError makes the raw text literal PTY input; a
parsed object is dispatched on its type field (resize with rows/cols
defaulting to 24/80, input with data defaulting to "" — a non-string
data raises AttributeError on .encode, tearing the connection down); an
object with any other type falls through both branches and is silently
dropped; a parsed non-object raises AttributeError on .get, also tearing
the connection down.  The parse outcome of the external json.loads is
supplied as a parameter; UTF-8 encoding of the written text happens at
the PTY boundary. -/
def textFrameAction (parsed : Except Unit Json) (text : String) : WsAction :=
  match parsed with
  | .error _ => WsAction.writeInput text
  | .ok (Json.obj fields) =>
    if isStrEq (jsonGet fields "type") "resize" then
      WsAction.resizeCmd (jsonGetD fields "rows" (Json.num 24))
        (jsonGetD fields "cols" (Json.num 80))
    else if isStrEq (jsonGet fields "type") "input" then
      match jsonGetD fields "data" (Json.str "") with
      | Json.str s => WsAction.writeInput s
      | _ => WsAction.fatal
    else WsAction.ignored
  | .ok _ => WsAction.fatal

/-- An OS-level call issued by the PTY session on behalf of a client. -/
inductive IoOp
  | writeFd (fd : Nat) (data : List Nat)
  | ioctlResize (fd : Nat) (rows cols : Int)
  deriving DecidableEq

/-- The PTYSession fields consulted by write and resize. -/
structure PtyIoState where
  running : Bool
  masterFd : Option Nat
  deriving DecidableEq

/-- PTYSession.write: returns False without any I/O when not running or
the master descriptor is gone; otherwise performs one os.write whose
OSError outcome (caught, logged, surfaced as False) is the osWriteOk
oracle.  It never raises to the caller. -/
def ptyWrite (st : PtyIoState) (data : List Nat) (osWriteOk : Bool) :
    Bool × List IoOp :=
  if st.running = false ∨ st.masterFd = none then (false, [])
  else
    match st.masterFd with
    | some fd => (osWriteOk, [IoOp.writeFd fd data])
    | none => (false, [])

/-- PTYSession.resize: silently returns when there is no master
descriptor; otherwise issues one TIOCSWINSZ ioctl whose exceptions are
caught and logged.  It never raises and returns nothing. -/
def ptyResize (st : PtyIoState) (rows cols : Int) : List IoOp :=
  match st.masterFd with
  | none => []
  | some fd => [IoOp.ioctlResize fd rows cols]

/-- Python str.replace: replace every non-overlapping occurrence of the
pattern, scanning left to right.  The fuel is the input length, enough
for every step since each iteration consumes at least one character
(all call sites use a non-empty pattern). -/
def replaceAllGo (pat rep : List Char) : Nat → List Char → List Char
  | _, [] => []
  | 0, s => s
  | fuel+1, c :: rest =>
    if pat.isPrefixOf (c :: rest) then
      rep ++ replaceAllGo pat rep fuel ((c :: rest).drop pat.length)
    else c :: replaceAllGo pat rep fuel rest

/-- Python str.replace on strings. -/
def pyReplace (s old new : String) : String :=
  String.mk (replaceAllGo old.data new.data s.data.length s.data)

/-- Python str.startswith. -/
def pyStartsWith (s pre : String) : Bool := pre.data.isPrefixOf s.data

/-- Does the pattern occur as a contiguous substring? -/
def hasSub (pat s : List Char) : Bool :=
  (List.range (s.length + 1)).any (fun i => pat.isPrefixOf (s.drop i))

/-- Header lookup: assoc-list view of a (case-normalised) header dict. -/
def lookupHeader (k : String) (hs : List (String × String)) : Option String :=
  alLookup k hs

/-- Header update: response_headers[key] = value. -/
def setHeader (k v : String) (hs : List (String × String)) :
    List (String × String) :=
  alSet k v hs

/-- Removal of the hop-by-hop headers from the backend response:
response_headers.pop(h, None) for transfer-encoding, connection,
keep-alive. -/
def stripHopByHop (hs : List (String × String)) : List (String × String) :=
  hs.filter (fun p =>
    p.1 != "transfer-encoding" && p.1 != "connection" && p.1 != "keep-alive")

/-- The backend's own origin as the proxy writes it:
http://127.0.0.1:{port}. -/
def backendOrigin (port : Nat) : String := "http://127.0.0.1:" ++ toString port

/-- The Location-header rewriting of proxy_to_vscode: when the location
value starts with the backend's own origin, str.replace rewrites it to
the public /vscode/{session_id} prefix. -/
def rewriteLocation (port : Nat) (sid : String)
    (hs : List (String × String)) : List (String × String) :=
  match lookupHeader "location" hs with
  | some loc =>
    if pyStartsWith loc (backendOrigin port) then
      setHeader "location"
        (pyReplace loc (backendOrigin port) ("/vscode/" ++ sid)) hs
    else hs
  | none => hs

/-- An inbound request as proxy_to_vscode sees it (headers already
lower-cased by the framework). -/
structure ProxyRequest where
  method : String
  headers : List (String × String)
  queryString : String
  body : List Nat
  deriving DecidableEq

/-- The backend's response: status and (lower-cased) headers. -/
structure BackendResp where
  statusCode : Nat
  headers : List (String × String)
  deriving DecidableEq

/-- Outcomes of the httpx call: ConnectError maps to 503, any other
exception to 500. -/
inductive ReqErr
  | connectErr
  | otherErr
  deriving DecidableEq

/-- What the proxy hands back (and what it sent): the target URL it
forwarded to, the forwarded headers and body, the follow_redirects
setting, and the response status and headers after Location rewriting
and hop-by-hop stripping. -/
structure ProxyResult where
  targetUrl : String
  fwdHeaders : List (String × String)
  fwdBody : Option (List Nat)
  followRedirects : Bool
  statusCode : Nat
  respHeaders : List (String × String)
  deriving DecidableEq

/-- proxy_to_vscode (main.py): no live instance means HTTP 503 with
nothing forwarded; otherwise the request is forwarded to
127.0.0.1:{port}/{path} (query string appended when non-empty, body only
for POST/PUT/PATCH, host header dropped, redirects not followed), and on
the response the location header is rewritten off the backend origin and
the hop-by-hop headers are stripped.  The error status is the HTTPException
status code. -/
def proxyToVscode (inst : Option VInst) (sid path : String)
    (req : ProxyRequest) (backend : Except ReqErr BackendResp) :
    Except Nat ProxyResult :=
  match inst with
  | none => .error 503
  | some i =>
    let targetUrl := "http://127.0.0.1:" ++ toString i.port ++ "/" ++ path
      ++ (if req.queryString ≠ "" then "?" ++ req.queryString else "")
    let body := if req.method = "POST" ∨ req.method = "PUT" ∨ req.method = "PATCH"
      then some req.body else none
    let fwd := req.headers.filter (fun p => p.1 != "host")
    match backend with
    | .error .connectErr => .error 503
    | .error .otherErr => .error 500
    | .ok resp =>
      .ok ⟨targetUrl, fwd, body, false, resp.statusCode,
        stripHopByHop (rewriteLocation i.port sid resp.headers)⟩

/-- Characters allowed in the parameter part of a CSI escape sequence,
the [0-9;]* of the regex \x1b\[[0-9;]*[a-zA-Z]. -/
def isCsiParam (c : Char) : Bool :=
  (48 ≤ c.toNat && c.toNat ≤ 57) || c == ';'

/-- ASCII letters, the [a-zA-Z] final byte of a CSI sequence. -/
def isAsciiLetter (c : Char) : Bool :=
  (65 ≤ c.toNat && c.toNat ≤ 90) || (97 ≤ c.toNat && c.toNat ≤ 122)

/-- After ESC [ was seen: consume [0-9;]* then one letter; none when the
regex does not match at this position. -/
def takeCsiBody : List Char → Option (List Char)
  | [] => none
  | c :: rest =>
    if isCsiParam c then takeCsiBody rest
    else if isAsciiLetter c then some rest
    else none

/-- re.sub of the CSI pattern \x1b\[[0-9;]*[a-zA-Z] with "": scan left to
right, drop each match, keep everything else.  Fuel is the input length;
every iteration consumes at least one character. -/
def stripCsiGo : Nat → List Char → List Char
  | 0, s => s
  | _+1, [] => []
  | fuel+1, c :: rest =>
    if c == '\x1b' then
      match rest with
      | '[' :: rest2 =>
        match takeCsiBody rest2 with
        | some rest3 => stripCsiGo fuel rest3
        | none => c :: stripCsiGo fuel rest
      | _ => c :: stripCsiGo fuel rest
    else c :: stripCsiGo fuel rest

/-- After ESC ] was seen: the OSC body [^\x07]*\x07 reaches up to and
including the first BEL; none when no BEL follows. -/
def dropThroughBel : List Char → Option (List Char)
  | [] => none
  | c :: rest => if c == '\x07' then some rest else dropThroughBel rest

/-- re.sub of the OSC pattern \x1b\][^\x07]*\x07 with "". -/
def stripOscGo : Nat → List Char → List Char
  | 0, s => s
  | _+1, [] => []
  | fuel+1, c :: rest =>
    if c == '\x1b' then
      match rest with
      | ']' :: rest2 =>
        match dropThroughBel rest2 with
        | some rest3 => stripOscGo fuel rest3
        | none => c :: stripOscGo fuel rest
      | _ => c :: stripOscGo fuel rest
    else c :: stripOscGo fuel rest

/-- re.sub of [\x00-\x1f\x7f] with a space. -/
def replaceCtrl (c : Char) : Char :=
  if c.toNat ≤ 31 || c.toNat == 127 then ' ' else c

/-- Python \s for the ASCII range (the cleaned text only ever holds
spaces once control characters were replaced). -/
def isPySpace (c : Char) : Bool :=
  c == ' ' || c == '\t' || c == '\n' || c == '\r' || c == '\x0b' || c == '\x0c'

/-- re.sub of \s+ with a single space. -/
def collapseWsGo : Nat → List Char → List Char
  | 0, s => s
  | _+1, [] => []
  | fuel+1, c :: rest =>
    if isPySpace c then ' ' :: collapseWsGo fuel (rest.dropWhile isPySpace)
    else c :: collapseWsGo fuel rest

/-- Python str.strip. -/
def pyStrip (s : List Char) : List Char :=
  ((s.dropWhile isPySpace).reverse.dropWhile isPySpace).reverse

/-- The cleaning pipeline of _check_and_notify: strip CSI sequences,
strip OSC sequences, blank control characters, collapse whitespace,
strip.  The bytes→str utf-8 decode with errors ignored is modelled as
working on text directly. -/
def cleanText (s : List Char) : List Char :=
  let a := stripCsiGo s.length s
  let b := stripOscGo a.length a
  let c := b.map replaceCtrl
  pyStrip (collapseWsGo c.length c)

/-- re.search of \?\s*$: the last non-whitespace character is a question
mark. -/
def endsWithQuestion (s : List Char) : Bool :=
  match s.reverse.dropWhile isPySpace with
  | c :: _ => c == '?'
  | [] => false

/-- re.search of word.*: — an occurrence of the word with a colon
anywhere later on the (single, newline-free) line. -/
def searchThenColon (word : List Char) (s : List Char) : Bool :=
  (List.range (s.length + 1)).any
    (fun i => word.isPrefixOf (s.drop i) && ((s.drop (i + word.length)).contains ':'))

/-- The ordered waiting_patterns list of _check_and_notify; matching is
case-insensitive, so each predicate is applied to the lowered text. -/
def waitingPatterns : List ((List Char → Bool) × String) :=
  [ (fun s => endsWithQuestion s, "Claude is asking a question"),
    (fun s => hasSub ("[y/n]".data) s, "Claude needs confirmation"),
    (fun s => hasSub ("(y/n)".data) s, "Claude needs confirmation"),
    (fun s => hasSub ("proceed?".data) s, "Claude is asking to proceed"),
    (fun s => hasSub ("continue?".data) s, "Claude is asking to continue"),
    (fun s => searchThenColon ("select".data) s, "Claude is waiting for selection"),
    (fun s => searchThenColon ("choose".data) s, "Claude is waiting for your choice"),
    (fun s => searchThenColon ("enter".data) s, "Claude is waiting for input") ]

/-- First matching pattern wins; generic default message otherwise. -/
def classifyMessage (clean : List Char) : String :=
  match waitingPatterns.find? (fun pm => pm.1 (clean.map Char.toLower)) with
  | some pm => pm.2
  | none => "Claude has an update"

/-- The notification state of PTYSession consulted by _check_and_notify;
the rolling buffer is modelled as text, times as integers. -/
structure NotifyState where
  ntfyTopic : Option String
  buffer : List Char
  lastNotificationTime : Int
  cooldown : Int
  deriving DecidableEq

/-- Result of one timer fire: the notification sent (if any) and the
updated state. -/
structure NotifyResult where
  sent : Option String
  state : NotifyState
  deriving DecidableEq

/-- PTYSession._check_and_notify, run when the debounce timer fires:
nothing happens without a topic; within the cooldown the buffer is
cleared and nothing is sent; otherwise the buffer is cleaned and, when
the cleaned text has at least 5 characters, exactly one notification
with the classified message is sent, the last-notification time is set
to now, and the buffer is cleared. -/
def checkAndNotify (now : Int) (st : NotifyState) : NotifyResult :=
  match st.ntfyTopic with
  | none => ⟨none, st⟩
  | some _ =>
    if now - st.lastNotificationTime < st.cooldown then
      ⟨none, ⟨st.ntfyTopic, [], st.lastNotificationTime, st.cooldown⟩⟩
    else
      let clean := cleanText st.buffer
      if clean.length < 5 then
        ⟨none, ⟨st.ntfyTopic, [], st.lastNotificationTime, st.cooldown⟩⟩
      else
        ⟨some (classifyMessage clean), ⟨st.ntfyTopic, [], now, st.cooldown⟩⟩

/-- The spec section 8 scenario: buffer text "Proceed? [Y/n] " with
topic set, last notification long past, cooldown 3 seconds. -/
def notifyExampleState : NotifyState :=
  ⟨some "t", "Proceed? [Y/n] ".data, 0, 3⟩

theorem totalSize_trimBuffer_le (cap : Nat) (l : List Chunk) :
    totalSize (trimBuffer cap l) ≤ cap := by
  induction l with
  | nil => simp [trimBuffer, totalSize]
  | cons b rest ih =>
    rw [trimBuffer]
    split
    · exact ih
    · omega

theorem trimBuffer_suffix (cap : Nat) (l : List Chunk) :
    trimBuffer cap l <:+ l := by
  induction l with
  | nil => simp [trimBuffer]
  | cons b rest ih =>
    rw [trimBuffer]
    split
    · exact ih.trans (List.suffix_cons b rest)
    · exact List.suffix_refl _

theorem suffix_append_right {α : Type} {l₁ l₂ : List α} (t : List α)
    (h : l₁ <:+ l₂) : l₁ ++ t <:+ l₂ ++ t := by
  obtain ⟨c, hc⟩ := h
  exact ⟨c, by rw [← List.append_assoc, hc]⟩

theorem runEngine_buffer_suffix_aux :
    ∀ (tr : List PtyEvent) (e : Engine),
      (tr.foldl ptyStep e).buffer <:+ e.buffer ++ broadcastsOf tr := by
  intro tr
  induction tr with
  | nil => intro e; simp [broadcastsOf]
  | cons ev rest ih =>
    intro e
    cases ev with
    | broadcast d =>
      have h1 := ih (broadcastStep e d)
      have h2 : trimBuffer bufferMaxSize (e.buffer ++ [d]) <:+ e.buffer ++ [d] :=
        trimBuffer_suffix _ _
      have h3 : trimBuffer bufferMaxSize (e.buffer ++ [d]) ++ broadcastsOf rest
          <:+ (e.buffer ++ [d]) ++ broadcastsOf rest :=
        suffix_append_right _ h2
      have h4 := h1.trans h3
      simpa [broadcastsOf, broadcastStep, List.filterMap_cons, List.append_assoc] using h4
    | addClient i =>
      have h1 := ih (addClientStep e i)
      simpa [broadcastsOf, addClientStep, List.filterMap_cons] using h1
    | removeClient i =>
      have h1 := ih (removeClientStep e i)
      simpa [broadcastsOf, removeClientStep, List.filterMap_cons] using h1

theorem runEngine_total_aux :
    ∀ (tr : List PtyEvent) (e : Engine),
      totalSize e.buffer ≤ bufferMaxSize →
      totalSize (tr.foldl ptyStep e).buffer ≤ bufferMaxSize := by
  intro tr
  induction tr with
  | nil => intro e h; simpa using h
  | cons ev rest ih =>
    intro e h
    cases ev with
    | broadcast d => exact ih _ (totalSize_trimBuffer_le _ _)
    | addClient i => exact ih _ h
    | removeClient i => exact ih _ h

/-- C1: after every call to _broadcast_output (and across any interleaving
with client registration events), the replay buffer's total byte size is
at most buffer_max_size, and the buffer is a contiguous suffix of the
sequence of originally-broadcast chunks — eviction only removes whole
chunks from the front and never truncates a chunk. -/
theorem replay_buffer_bounded_and_chunk_aligned (tr : List PtyEvent) :
    totalSize (runEngine tr).buffer ≤ bufferMaxSize ∧
    (runEngine tr).buffer <:+ broadcastsOf tr := by
  constructor
  · exact runEngine_total_aux tr initEngine (by simp [initEngine, totalSize])
  · have h := runEngine_buffer_suffix_aux tr initEngine
    simpa [initEngine, runEngine] using h

theorem find?_map_delivered (l : List EClient) (d : Chunk) (id : String) :
    (l.map (fun c => (⟨c.id, c.delivered ++ [d], c.history⟩ : EClient))).find?
        (fun c => c.id == id)
      = (l.find? (fun c => c.id == id)).map
          (fun c => ⟨c.id, c.delivered ++ [d], c.history⟩) := by
  induction l with
  | nil => rfl
  | cons c rest ih =>
    cases hcid : c.id == id with
    | true => simp [List.find?, hcid]
    | false => simp [List.find?, hcid, ih]

theorem find?_setClient_self (l : List EClient) (c : EClient) :
    (setClient c l).find? (fun c' => c'.id == c.id) = some c := by
  induction l with
  | nil => simp [setClient, List.find?]
  | cons c' rest ih =>
    rw [setClient]
    split
    · simp [List.find?]
    · rename_i hne
      have h' : (c'.id == c.id) = false := by
        simp only [beq_eq_false_iff_ne, ne_eq]
        exact hne
      simp [List.find?, h', ih]

theorem find?_setClient_ne (l : List EClient) (c' : EClient) (id : String)
    (h : c'.id ≠ id) :
    (setClient c' l).find? (fun c => c.id == id)
      = l.find? (fun c => c.id == id) := by
  have hcb : (c'.id == id) = false := by
    simp only [beq_eq_false_iff_ne, ne_eq]
    exact h
  induction l with
  | nil => simp [setClient, List.find?, hcb]
  | cons c rest ih =>
    rw [setClient]
    split
    · rename_i heq
      have hc : (c.id == id) = false := by
        rw [show c.id = c'.id from heq]
        exact hcb
      simp [List.find?, hcb, hc]
    · cases hcid : c.id == id with
      | true => simp [List.find?, hcid]
      | false => simp [List.find?, hcid, ih]

theorem find?_filter_ne (l : List EClient) (id id' : String) (h : id ≠ id') :
    (l.filter (fun c => c.id != id')).find? (fun c => c.id == id)
      = l.find? (fun c => c.id == id) := by
  induction l with
  | nil => rfl
  | cons c rest ih =>
    cases hcid : c.id == id with
    | true =>
      have hceq : c.id = id := by simpa using hcid
      have hkeep : (c.id != id') = true := by simp [hceq, h]
      simp [List.filter, List.find?, hkeep, hcid]
    | false =>
      cases hk : c.id != id' with
      | true => simp [List.filter, List.find?, hk, hcid, ih]
      | false => simp [List.filter, List.find?, hk, hcid, ih]

theorem findClient_run_untouched :
    ∀ (tr : List PtyEvent) (e : Engine) (c : EClient),
      (∀ ev ∈ tr, touchesClient c.id ev = false) →
      findClient e c.id = some c →
      findClient (tr.foldl ptyStep e) c.id
        = some ⟨c.id, c.delivered ++ broadcastsOf tr, c.history⟩ := by
  intro tr
  induction tr with
  | nil =>
    intro e c _ hfind
    simpa [broadcastsOf] using hfind
  | cons ev rest ih =>
    intro e c htouch hfind
    have hrest : ∀ ev' ∈ rest, touchesClient c.id ev' = false :=
      fun ev' hm => htouch ev' (List.mem_cons_of_mem _ hm)
    cases ev with
    | broadcast d =>
      have hfind' : findClient (broadcastStep e d) c.id
          = some ⟨c.id, c.delivered ++ [d], c.history⟩ := by
        unfold findClient broadcastStep
        simp only
        rw [find?_map_delivered]
        unfold findClient at hfind
        rw [hfind]
        rfl
      have h := ih (broadcastStep e d) ⟨c.id, c.delivered ++ [d], c.history⟩
        (by simpa using hrest) hfind'
      simpa [broadcastsOf, List.filterMap_cons, List.append_assoc] using h
    | addClient i =>
      have hne : i ≠ c.id := by
        have := htouch (.addClient i) (List.mem_cons_self _ _)
        simpa [touchesClient] using this
      have hfind' : findClient (addClientStep e i) c.id = some c := by
        unfold findClient addClientStep
        simp only
        rw [find?_setClient_ne _ _ _ hne]
        exact hfind
      have h := ih (addClientStep e i) c hrest hfind'
      simpa [broadcastsOf, List.filterMap_cons] using h
    | removeClient i =>
      have hne : c.id ≠ i := by
        have := htouch (.removeClient i) (List.mem_cons_self _ _)
        simp [touchesClient] at this
        exact fun hx => this (hx.symm)
      have hfind' : findClient (removeClientStep e i) c.id = some c := by
        unfold findClient removeClientStep
        simp only
        rw [find?_filter_ne _ _ _ hne]
        exact hfind
      have h := ih (removeClientStep e i) c hrest hfind'
      simpa [broadcastsOf, List.filterMap_cons] using h

theorem findClient_addClient_self (e : Engine) (id : String) :
    findClient (addClientStep e id) id = some ⟨id, [], e.buffer.flatten⟩ := by
  have h := find?_setClient_self e.clients ⟨id, [], e.buffer.flatten⟩
  unfold findClient addClientStep
  simpa using h

/-- C2: a client registered between broadcast chunks receives, in order,
the joined replay buffer as it was at registration time as its catch-up
history, and then exactly the chunks broadcast strictly after its
registration — no chunk of the catch-up snapshot is delivered again, and
no later chunk is missing. -/
theorem add_client_catch_up_exact (t1 t2 : List PtyEvent) (id : String)
    (h2 : ∀ ev ∈ t2, touchesClient id ev = false) :
    findClient (runEngine (t1 ++ PtyEvent.addClient id :: t2)) id
      = some ⟨id, broadcastsOf t2, (runEngine t1).buffer.flatten⟩ := by
  have hsplit : runEngine (t1 ++ PtyEvent.addClient id :: t2)
      = t2.foldl ptyStep (addClientStep (runEngine t1) id) := by
    unfold runEngine
    rw [List.foldl_append]
    rfl
  rw [hsplit]
  have h := findClient_run_untouched t2 (addClientStep (runEngine t1) id)
    ⟨id, [], (runEngine t1).buffer.flatten⟩ (by simpa using h2)
    (findClient_addClient_self _ _)
  simpa using h

/-- Witness for C2 at the concrete scenario of spec section 8: broadcast
"AB" and "CD", register client c2 (catch-up "ABCD"), broadcast "EF" —
c2 receives exactly "EF". -/
theorem add_client_catch_up_exact_witness :
    (∀ ev ∈ ([PtyEvent.broadcast [69, 70]] : List PtyEvent),
      touchesClient "c2" ev = false) ∧
    findClient (runEngine ([PtyEvent.broadcast [65, 66], PtyEvent.broadcast [67, 68]]
        ++ PtyEvent.addClient "c2" :: [PtyEvent.broadcast [69, 70]])) "c2"
      = some ⟨"c2", [[69, 70]], [65, 66, 67, 68]⟩ := by
  constructor
  · decide
  · exact (add_client_catch_up_exact
      [PtyEvent.broadcast [65, 66], PtyEvent.broadcast [67, 68]]
      [PtyEvent.broadcast [69, 70]] "c2" (by decide)).trans (by decide)

theorem alLookup_alSet_self {α : Type} (k : String) (v : α)
    (l : List (String × α)) : alLookup k (alSet k v l) = some v := by
  induction l with
  | nil => simp [alSet, alLookup, List.find?]
  | cons p rest ih =>
    rw [alSet]
    split
    · simp [alLookup, List.find?]
    · rename_i hne
      have h' : (p.1 == k) = false := by
        simp only [beq_eq_false_iff_ne, ne_eq]
        exact hne
      simpa [alLookup, List.find?, h'] using ih

theorem alSet_map_subset {α β : Type} (f : String × α → β) (k : String) (v : α) :
    ∀ l : List (String × α), ((alSet k v l).map f) ⊆ f (k, v) :: l.map f := by
  intro l
  induction l with
  | nil => simp [alSet]
  | cons p rest ih =>
    rw [alSet]
    split
    · intro x hx
      simp at hx ⊢
      tauto
    · intro x hx
      simp at hx ⊢
      rcases hx with h | h
      · tauto
      · have h' := ih (by simpa using h)
        simp at h'
        tauto

theorem alSet_keys_nodup {α : Type} (k : String) (v : α) :
    ∀ l : List (String × α), (l.map (fun p => p.1)).Nodup →
      ((alSet k v l).map (fun p => p.1)).Nodup := by
  intro l
  induction l with
  | nil => intro _; simp [alSet]
  | cons p rest ih =>
    intro h
    rw [alSet]
    split
    · rename_i heq
      simp only [List.map_cons, List.nodup_cons] at h ⊢
      exact ⟨heq ▸ h.1, h.2⟩
    · rename_i hne
      simp only [List.map_cons, List.nodup_cons] at h ⊢
      refine ⟨?_, ih h.2⟩
      intro hmem
      have h' := alSet_map_subset (fun p => p.1) k v rest hmem
      rcases List.mem_cons.mp h' with h1 | h1
      · exact hne h1
      · exact h.1 h1

theorem alSet_ports_nodup (k : String) (v : VInst) :
    ∀ l : List (String × VInst), (l.map (fun e => e.2.port)).Nodup →
      v.port ∉ l.map (fun e => e.2.port) →
      ((alSet k v l).map (fun e => e.2.port)).Nodup := by
  intro l
  induction l with
  | nil => intro _ _; simp [alSet]
  | cons p rest ih =>
    intro h hnv
    simp only [List.map_cons, List.mem_cons, not_or] at hnv
    simp only [List.map_cons, List.nodup_cons] at h
    rw [alSet]
    split
    · simp only [List.map_cons, List.nodup_cons]
      exact ⟨hnv.2, h.2⟩
    · simp only [List.map_cons, List.nodup_cons]
      refine ⟨?_, ih h.2 hnv.2⟩
      intro hmem
      have h' := alSet_map_subset (fun e => e.2.port) k v rest hmem
      rcases List.mem_cons.mp h' with h1 | h1
      · exact hnv.1 h1.symm
      · exact h.1 h1

theorem alSet_ports_range (k : String) (v : VInst) (l : List (String × VInst))
    (hl : ∀ p ∈ l.map (fun e => e.2.port), p ∈ portRange)
    (hv : v.port ∈ portRange) :
    ∀ p ∈ (alSet k v l).map (fun e => e.2.port), p ∈ portRange := by
  intro p hp
  have h' := alSet_map_subset (fun e => e.2.port) k v l hp
  rcases List.mem_cons.mp h' with h | h
  · rw [h]; exact hv
  · exact hl p h

theorem procExit_ports (sid : String) (l : List (String × VInst)) :
    ((l.map (fun e => if e.1 = sid
        then (e.1, (⟨e.2.sessionId, e.2.port, e.2.workingDir, false⟩ : VInst))
        else e)).map (fun e => e.2.port))
      = l.map (fun e => e.2.port) := by
  induction l with
  | nil => rfl
  | cons p rest ih =>
    by_cases h : p.1 = sid
    · simp [h, ih]
    · simp [h, ih]

theorem procExit_keys (sid : String) (l : List (String × VInst)) :
    ((l.map (fun e => if e.1 = sid
        then (e.1, (⟨e.2.sessionId, e.2.port, e.2.workingDir, false⟩ : VInst))
        else e)).map (fun e => e.1))
      = l.map (fun e => e.1) := by
  induction l with
  | nil => rfl
  | cons p rest ih =>
    by_cases h : p.1 = sid
    · simp [h, ih]
    · simp [h, ih]

theorem alRemove_map_sublist {α β : Type} (f : String × α → β) (k : String)
    (l : List (String × α)) :
    List.Sublist ((alRemove k l).map f) (l.map f) :=
  (List.filter_sublist l).map f

theorem startV_ok_state (st : VMState) (sid wd : String) (bf : Bool)
    (inst : VInst) (st' : VMState)
    (h : startV st sid wd bf = .ok (inst, st')) :
    st' = st ∨ ∃ port, findAvailablePort st = some port ∧
      st'.instances = alSet sid (⟨sid, port, wd, true⟩ : VInst) st.instances := by
  unfold startV at h
  cases hgi : getInstance st sid with
  | some i =>
    rw [hgi] at h
    simp at h
    exact Or.inl h.2.symm
  | none =>
    rw [hgi] at h
    cases hfp : findAvailablePort st with
    | none => rw [hfp] at h; cases h
    | some port =>
      rw [hfp] at h
      cases bf with
      | false => simp at h
      | true =>
        simp at h
        exact Or.inr ⟨port, rfl, by rw [← h.2]⟩

theorem vStep_inv (st : VMState) (ev : VEv) (h : VMInv st) :
    VMInv (vStep st ev) := by
  obtain ⟨hk, hp, hr⟩ := h
  cases ev with
  | start sid wd bf =>
    show VMInv (match startV st sid wd bf with
      | .ok (_, st') => st' | .error _ => st)
    cases hs : startV st sid wd bf with
    | error e => exact ⟨hk, hp, hr⟩
    | ok pr =>
      obtain ⟨inst, st'⟩ := pr
      rcases startV_ok_state st sid wd bf inst st' hs with heq | ⟨port, hfp, hst⟩
      · rw [heq]; exact ⟨hk, hp, hr⟩
      · have hmem : port ∈ portRange := List.mem_of_find?_eq_some hfp
        have hpred := List.find?_some hfp
        have hnot : port ∉ usedPorts st := by
          simp only [Bool.not_eq_true'] at hpred
          intro hmemu
          simp [hmemu] at hpred
        refine ⟨?_, ?_, ?_⟩
        · show (st'.instances.map (fun e => e.1)).Nodup
          rw [hst]
          exact alSet_keys_nodup _ _ _ hk
        · show (st'.instances.map (fun e => e.2.port)).Nodup
          rw [hst]
          exact alSet_ports_nodup _ _ _ hp hnot
        · show ∀ p ∈ st'.instances.map (fun e => e.2.port), p ∈ portRange
          rw [hst]
          exact alSet_ports_range _ _ _ hr hmem
  | stop sid g =>
    show VMInv (stopV st sid g).2.1
    unfold stopV
    cases hgl : alLookup sid st.instances with
    | none => exact ⟨hk, hp, hr⟩
    | some inst =>
      have hp' : (st.instances.map (fun e => e.2.port)).Nodup := hp
      have hr' : ∀ p ∈ st.instances.map (fun e => e.2.port), p ∈ portRange := hr
      refine ⟨?_, ?_, ?_⟩
      · exact ((alRemove_map_sublist (fun e => e.1) sid st.instances).nodup) hk
      · exact ((alRemove_map_sublist (fun e => e.2.port) sid st.instances).nodup) hp'
      · intro p hmem
        exact hr' p
          ((alRemove_map_sublist (fun e => e.2.port) sid st.instances).subset hmem)
  | procExit sid =>
    show VMInv ⟨st.instances.map (fun e =>
      if e.1 = sid then (e.1, ⟨e.2.sessionId, e.2.port, e.2.workingDir, false⟩) else e)⟩
    refine ⟨?_, ?_, ?_⟩
    · rw [procExit_keys]
      exact hk
    · show ((st.instances.map (fun e =>
        if e.1 = sid then (e.1, ⟨e.2.sessionId, e.2.port, e.2.workingDir, false⟩)
        else e)).map (fun e => e.2.port)).Nodup
      rw [procExit_ports]
      exact hp
    · intro p hmem
      rw [show usedPorts ⟨st.instances.map (fun e =>
          if e.1 = sid then (e.1, ⟨e.2.sessionId, e.2.port, e.2.workingDir, false⟩) else e)⟩
          = usedPorts st from procExit_ports sid st.instances] at hmem
      exact hr p hmem

theorem runV_inv_aux :
    ∀ (tr : List VEv) (st : VMState), VMInv st → VMInv (tr.foldl vStep st) := by
  intro tr
  induction tr with
  | nil => intro st h; exact h
  | cons ev rest ih => intro st h; exact ih _ (vStep_inv st ev h)

theorem runV_inv (tr : List VEv) : VMInv (runV tr) :=
  runV_inv_aux tr ⟨[]⟩ (by refine ⟨?_, ?_, ?_⟩ <;> simp [usedPorts])

theorem portRange_nodup : portRange.Nodup := by
  unfold portRange
  apply List.Nodup.map
  · intro a b hab
    exact Nat.add_left_cancel hab
  · exact List.nodup_range maxInstances

theorem full_live_covers (st : VMState) (hinv : VMInv st)
    (hlen : (liveInstances st).length = maxInstances) :
    ∀ p ∈ portRange, p ∈ usedPorts st := by
  intro p hp
  have hsub : List.Sublist ((liveInstances st).map (fun e => e.2.port)) (usedPorts st) :=
    (List.filter_sublist st.instances).map _
  have hnodupL : ((liveInstances st).map (fun e => e.2.port)).Nodup :=
    hsub.nodup hinv.2.1
  have hsubset : ∀ q ∈ (liveInstances st).map (fun e => e.2.port), q ∈ portRange :=
    fun q hq => hinv.2.2 q (hsub.subset hq)
  have hlenL : ((liveInstances st).map (fun e => e.2.port)).length = maxInstances := by
    rw [List.length_map]
    exact hlen
  have h1 : ((liveInstances st).map (fun e => e.2.port)).toFinset ⊆ portRange.toFinset := by
    intro q hq
    exact List.mem_toFinset.mpr (hsubset q (List.mem_toFinset.mp hq))
  have hcardL : ((liveInstances st).map (fun e => e.2.port)).toFinset.card = maxInstances := by
    rw [List.toFinset_card_of_nodup hnodupL, hlenL]
  have hcardP : portRange.toFinset.card = maxInstances := by
    rw [List.toFinset_card_of_nodup portRange_nodup]
    simp [portRange]
  have heq : ((liveInstances st).map (fun e => e.2.port)).toFinset = portRange.toFinset :=
    Finset.eq_of_subset_of_card_le h1 (by rw [hcardL, hcardP])
  have hm : p ∈ ((liveInstances st).map (fun e => e.2.port)).toFinset := by
    rw [heq]
    exact List.mem_toFinset.mpr hp
  exact hsub.subset (List.mem_toFinset.mp hm)

theorem start_exhausted_of_full (st : VMState) (hinv : VMInv st) (sid wd : String)
    (bf : Bool) (hlive : (liveInstances st).length = maxInstances)
    (hnone : getInstance st sid = none) :
    startV st sid wd bf = .error StartErr.resourceExhausted := by
  have hfull := full_live_covers st hinv hlive
  have hfp : findAvailablePort st = none := by
    unfold findAvailablePort
    rw [List.find?_eq_none]
    intro p hp
    simp [hfull p hp]
  unfold startV
  rw [hnone, hfp]

/-- C3: along any sequence of supervisor events starting from the empty
instance map, any two distinct recorded instances have different ports;
and a start request made while the maximum number of live instances
occupies the whole port range, for a session with no live instance, fails
with the resource-exhausted error instead of spawning a process. -/
theorem supervisor_ports_distinct_and_exhaustion (tr : List VEv) :
    (runV tr).instances.Pairwise (fun a b => a.2.port ≠ b.2.port) ∧
    ∀ sid wd bf, (liveInstances (runV tr)).length = maxInstances →
      getInstance (runV tr) sid = none →
      startV (runV tr) sid wd bf = .error StartErr.resourceExhausted := by
  have hinv := runV_inv tr
  constructor
  · exact List.pairwise_map.mp hinv.2.1
  · exact fun sid wd bf hl hn => start_exhausted_of_full _ hinv sid wd bf hl hn

/-- Witness for C3: after ten starts the port range is full and an
eleventh start for a fresh session id fails with ResourceExhausted. -/
theorem supervisor_exhaustion_witness :
    (liveInstances (runV fullTrace)).length = maxInstances ∧
    getInstance (runV fullTrace) "extra" = none ∧
    startV (runV fullTrace) "extra" "/w" true = .error StartErr.resourceExhausted := by
  refine ⟨by decide, by decide, ?_⟩
  exact (supervisor_ports_distinct_and_exhaustion fullTrace).2 "extra" "/w" true
    (by decide) (by decide)

/-- C9 counterexample: a recorded instance whose process has already
exited (state reachable by a start followed by the process exiting).
stop returns true and sends no signal, although nothing was running —
the claim as stated requires stop to return true exactly when a running
instance was signalled. -/
theorem stop_true_without_running_instance :
    runV [VEv.start "s1" "/w" true, VEv.procExit "s1"]
        = ⟨[("s1", ⟨"s1", 8766, "/w", false⟩)]⟩
    ∧ getInstance ⟨[("s1", ⟨"s1", 8766, "/w", false⟩)]⟩ "s1" = none
    ∧ (stopV ⟨[("s1", ⟨"s1", 8766, "/w", false⟩)]⟩ "s1" true).1 = true
    ∧ (stopV ⟨[("s1", ⟨"s1", 8766, "/w", false⟩)]⟩ "s1" true).2.2 = [] := by
  exact ⟨by decide, by decide, by decide, by decide⟩

/-- C9 amended: stop returns false exactly when no record (live or dead)
exists for the session id, in which case state is unchanged and nothing
is signalled; when a record exists, stop returns true, removes the
record, and signals the process group (SIGTERM, escalating to SIGKILL on
wait timeout or lookup failure) only if the recorded process was still
running. -/
theorem stop_semantics (st : VMState) (sid : String) (g : Bool) :
    ((stopV st sid g).1 = true ↔ (alLookup sid st.instances).isSome)
    ∧ (alLookup sid st.instances = none → stopV st sid g = (false, st, []))
    ∧ (∀ inst, alLookup sid st.instances = some inst →
        stopV st sid g = (true, ⟨alRemove sid st.instances⟩,
          if inst.alive then
            (if g then [Sig.sigterm] else [Sig.sigterm, Sig.sigkill])
          else [])) := by
  cases hgl : alLookup sid st.instances with
  | none =>
    refine ⟨?_, ?_, ?_⟩
    · simp [stopV, hgl]
    · intro _
      simp [stopV, hgl]
    · intro inst h
      cases h
  | some inst =>
    refine ⟨?_, ?_, ?_⟩
    · simp [stopV, hgl]
    · intro h
      cases h
    · intro inst' h
      injection h with h'
      subst h'
      simp [stopV, hgl]

/-- Witness for C9 (amended): stopping a live recorded instance removes
its record, returns true and sends SIGTERM. -/
theorem stop_semantics_witness :
    alLookup "s1" ([("s1", (⟨"s1", 8766, "/w", true⟩ : VInst))]) = some ⟨"s1", 8766, "/w", true⟩ ∧
    stopV ⟨[("s1", ⟨"s1", 8766, "/w", true⟩)]⟩ "s1" true = (true, ⟨[]⟩, [Sig.sigterm]) := by
  refine ⟨by decide, ?_⟩
  have h := (stop_semantics ⟨[("s1", ⟨"s1", 8766, "/w", true⟩)]⟩ "s1" true).2.2
    ⟨"s1", 8766, "/w", true⟩ (by decide)
  exact h.trans (by decide)

/-- C4: creating a session under a fresh name binds it to the first
call's directory and command; an immediately following
get_or_create_session with the same name and a different directory
returns the very same session, still bound to the first directory, and
leaves the registry completely unchanged. -/
theorem get_or_create_idempotent (m : SessionMgr) (x dirA dirB : String)
    (cmdA cmdB : Option (List String)) (ok2 : Bool) (s : SessionRec)
    (m' : SessionMgr)
    (hfresh : alLookup x m.sessions = none)
    (h1 : getOrCreateSession m x dirA cmdA true = .ok (s, m')) :
    getOrCreateSession m' x dirB cmdB ok2 = .ok (s, m') ∧
    s.workingDir = dirA ∧ s.command = normCommand cmdA := by
  unfold getOrCreateSession at h1
  rw [hfresh] at h1
  simp at h1
  obtain ⟨hs, hm⟩ := h1
  have hlook : alLookup x m'.sessions = some s := by
    rw [← hm, ← hs]
    exact alLookup_alSet_self x _ m.sessions
  refine ⟨?_, ?_, ?_⟩
  · unfold getOrCreateSession
    rw [hlook]
  · rw [← hs]
  · rw [← hs]

/-- Witness for C4 on a concrete fresh registry. -/
theorem get_or_create_idempotent_witness :
    alLookup "x" (SessionMgr.mk [] none).sessions = none ∧
    getOrCreateSession ⟨[], none⟩ "x" "/a" none true
      = .ok (⟨"/a", ["claude"], true⟩,
             ⟨[("x", ⟨"/a", ["claude"], true⟩)], some "x"⟩) ∧
    getOrCreateSession ⟨[("x", ⟨"/a", ["claude"], true⟩)], some "x"⟩ "x" "/b" none true
      = .ok (⟨"/a", ["claude"], true⟩,
             ⟨[("x", ⟨"/a", ["claude"], true⟩)], some "x"⟩) := by
  refine ⟨by decide, rfl, ?_⟩
  exact ((get_or_create_idempotent ⟨[], none⟩ "x" "/a" "/b" none none true
    ⟨"/a", ["claude"], true⟩ ⟨[("x", ⟨"/a", ["claude"], true⟩)], some "x"⟩
    (by decide) rfl).1)

/-- C10: at the terminal WebSocket endpoint an empty-string session_id
query parameter resolves exactly like an absent one — first the
configured default session name is tried, then, because the given id is
falsy, the registry's default session; the empty string itself is never
looked up as a literal session id. -/
theorem empty_session_id_like_absent (m : SessionMgr) (name : String) :
    resolveWsSession m name (some "") = resolveWsSession m name none := by
  unfold resolveWsSession
  simp

/-- C5 counterexample: a well-formed JSON text frame whose type is
neither resize nor input is silently dropped by the relay, not forwarded
verbatim as literal input as the claim states. -/
theorem text_frame_other_json_not_literal_input :
    textFrameAction (.ok (Json.obj [("type", Json.str "ping")]))
        "\x7b\x22type\x22: \x22ping\x22\x7d"
      = WsAction.ignored ∧
    textFrameAction (.ok (Json.obj [("type", Json.str "ping")]))
        "\x7b\x22type\x22: \x22ping\x22\x7d"
      ≠ WsAction.writeInput "\x7b\x22type\x22: \x22ping\x22\x7d" := by
  constructor
  · rfl
  · intro h
    rw [show textFrameAction (.ok (Json.obj [("type", Json.str "ping")]))
        "\x7b\x22type\x22: \x22ping\x22\x7d" = WsAction.ignored from rfl] at h
    cases h

/-- C5 amended: a text frame that is not valid JSON is forwarded
verbatim as literal PTY input; a frame parsing as a JSON object with
type "resize" is dispatched to resize (rows/cols defaulting to 24/80)
and with type "input" to write of its string data field; but a frame
parsing as a JSON object with any other (or missing) type is silently
dropped, and a frame parsing as JSON that is not an object crashes the
receive loop. -/
theorem text_frame_dispatch (text : String) (fields : List (String × Json)) :
    (textFrameAction (.error ()) text = WsAction.writeInput text)
    ∧ (isStrEq (jsonGet fields "type") "resize" = true →
        textFrameAction (.ok (Json.obj fields)) text
          = WsAction.resizeCmd (jsonGetD fields "rows" (Json.num 24))
              (jsonGetD fields "cols" (Json.num 80)))
    ∧ (∀ s, isStrEq (jsonGet fields "type") "resize" = false →
        isStrEq (jsonGet fields "type") "input" = true →
        jsonGetD fields "data" (Json.str "") = Json.str s →
        textFrameAction (.ok (Json.obj fields)) text = WsAction.writeInput s)
    ∧ (isStrEq (jsonGet fields "type") "resize" = false →
        isStrEq (jsonGet fields "type") "input" = false →
        textFrameAction (.ok (Json.obj fields)) text = WsAction.ignored) := by
  refine ⟨rfl, ?_, ?_, ?_⟩
  · intro hres
    simp [textFrameAction, hres]
  · intro s hres hinp hdata
    simp [textFrameAction, hres, hinp, hdata]
  · intro hres hinp
    simp [textFrameAction, hres, hinp]

/-- Witness for the amended C5 on concrete frames: a non-JSON text frame
becomes literal input, and an input-typed frame writes its data field. -/
theorem text_frame_dispatch_witness :
    isStrEq (jsonGet [("type", Json.str "input"), ("data", Json.str "ls")] "type")
        "resize" = false ∧
    isStrEq (jsonGet [("type", Json.str "input"), ("data", Json.str "ls")] "type")
        "input" = true ∧
    textFrameAction (.error ()) "plain" = WsAction.writeInput "plain" ∧
    textFrameAction
        (.ok (Json.obj [("type", Json.str "input"), ("data", Json.str "ls")])) "x"
      = WsAction.writeInput "ls" := by
  refine ⟨rfl, rfl, ?_, ?_⟩
  · exact (text_frame_dispatch "plain"
      [("type", Json.str "input"), ("data", Json.str "ls")]).1
  · exact (text_frame_dispatch "x"
      [("type", Json.str "input"), ("data", Json.str "ls")]).2.2.1 "ls" rfl rfl rfl

/-- C7: write on a stopped engine (or one whose master descriptor is
gone, as after child exit and cleanup) returns false and performs no
I/O, surfacing failure as a boolean rather than an exception; and
resize with no active master descriptor is a silent no-op that issues
no ioctl. -/
theorem write_stopped_and_resize_noop (st : PtyIoState) (data : List Nat)
    (osWriteOk : Bool) (rows cols : Int) :
    (st.running = false → ptyWrite st data osWriteOk = (false, []))
    ∧ (st.masterFd = none →
        ptyWrite st data osWriteOk = (false, []) ∧ ptyResize st rows cols = []) := by
  constructor
  · intro h
    unfold ptyWrite
    rw [if_pos (Or.inl h)]
  · intro h
    constructor
    · unfold ptyWrite
      rw [if_pos (Or.inr h)]
    · unfold ptyResize
      rw [h]

/-- Witness for C7 on a stopped session with a closed descriptor. -/
theorem write_stopped_and_resize_noop_witness :
    ((⟨false, none⟩ : PtyIoState).running = false) ∧
    ptyWrite ⟨false, none⟩ [113] true = (false, []) ∧
    ptyResize ⟨false, none⟩ 50 120 = [] := by
  refine ⟨rfl, ?_, ?_⟩
  · exact (write_stopped_and_resize_noop ⟨false, none⟩ [113] true 50 120).1 rfl
  · exact ((write_stopped_and_resize_noop ⟨false, none⟩ [113] true 50 120).2 rfl).2

theorem isPrefixOf_self_append (p t : List Char) :
    p.isPrefixOf (p ++ t) = true := by
  induction p with
  | nil => simp [List.isPrefixOf]
  | cons a as ih => simp [List.isPrefixOf, ih]

theorem replaceAllGo_of_no_match (pat rep : List Char) :
    ∀ (fuel : Nat) (s : List Char),
      (∀ i, pat.isPrefixOf (s.drop i) = false) →
      replaceAllGo pat rep fuel s = s := by
  intro fuel
  induction fuel with
  | zero =>
    intro s _
    cases s <;> rfl
  | succ fuel ih =>
    intro s h
    cases s with
    | nil => rfl
    | cons c rest =>
      have h0 : pat.isPrefixOf (c :: rest) = false := by
        have := h 0
        simpa using this
      rw [replaceAllGo, h0]
      simp only [Bool.false_eq_true, if_false]
      congr 1
      exact ih rest (fun i => by simpa [List.drop_succ_cons] using h (i + 1))

theorem no_match_of_hasSub_false (pat s : List Char) (hp : pat ≠ [])
    (h : hasSub pat s = false) :
    ∀ i, pat.isPrefixOf (s.drop i) = false := by
  intro i
  by_cases hi : i ≤ s.length
  · unfold hasSub at h
    rw [List.any_eq_false] at h
    have hmem : i ∈ List.range (s.length + 1) := List.mem_range.mpr (by omega)
    exact Bool.eq_false_iff.mpr (h i hmem)
  · have hnil : s.drop i = [] := List.drop_eq_nil_of_le (by omega)
    rw [hnil]
    cases pat with
    | nil => exact absurd rfl hp
    | cons a as => rfl

theorem replaceAllGo_front (pat rep rest : List Char) (hp : pat ≠ [])
    (hno : ∀ i, pat.isPrefixOf (rest.drop i) = false) :
    ∀ fuel, 0 < fuel → replaceAllGo pat rep fuel (pat ++ rest) = rep ++ rest := by
  intro fuel hf
  obtain ⟨a, as, rfl⟩ := List.exists_cons_of_ne_nil hp
  obtain ⟨f', rfl⟩ : ∃ f', fuel = f' + 1 := ⟨fuel - 1, by omega⟩
  show replaceAllGo (a :: as) rep (f' + 1) (a :: (as ++ rest)) = rep ++ rest
  rw [replaceAllGo]
  have hpre : (a :: as).isPrefixOf (a :: (as ++ rest)) = true := by
    have h' := isPrefixOf_self_append (a :: as) rest
    simp only [List.cons_append] at h'
    exact h'
  rw [hpre]
  simp only [if_true]
  have hdrop : (a :: (as ++ rest)).drop (a :: as).length = rest := by
    have h' := List.drop_left (a :: as) rest
    simp only [List.cons_append] at h'
    exact h'
  rw [hdrop, replaceAllGo_of_no_match _ _ _ _ hno]

theorem lookupHeader_filter_keep (k : String) (f : String × String → Bool)
    (hk : ∀ p : String × String, p.1 = k → f p = true) :
    ∀ hs : List (String × String),
      lookupHeader k (hs.filter f) = lookupHeader k hs := by
  intro hs
  induction hs with
  | nil => rfl
  | cons p rest ih =>
    cases hpk : p.1 == k with
    | true =>
      have hfp : f p = true := hk p (by simpa using hpk)
      simp [List.filter, hfp, lookupHeader, alLookup, List.find?, hpk]
    | false =>
      cases hfp : f p with
      | true => simpa [List.filter, hfp, lookupHeader, alLookup, List.find?, hpk] using ih
      | false => simpa [List.filter, hfp, lookupHeader, alLookup, List.find?, hpk] using ih

theorem lookupHeader_filter_drop (k : String) (f : String × String → Bool)
    (hk : ∀ p : String × String, p.1 = k → f p = false) :
    ∀ hs : List (String × String),
      lookupHeader k (hs.filter f) = none := by
  intro hs
  induction hs with
  | nil => rfl
  | cons p rest ih =>
    cases hfp : f p with
    | true =>
      have hpk : (p.1 == k) = false := by
        cases hpk : p.1 == k with
        | false => rfl
        | true =>
          have : f p = false := hk p (by simpa using hpk)
          rw [this] at hfp
          cases hfp
      simpa [List.filter, hfp, lookupHeader, alLookup, List.find?, hpk] using ih
    | false => simpa [List.filter, hfp] using ih

/-- C8: with no live instance for the session id, the proxy fails with
HTTP 503 and forwards nothing; with a live instance, the request is
forwarded to 127.0.0.1:{port}/{path} (query string appended when
present) with the host header removed and redirects not followed, and on
the backend response the hop-by-hop headers transfer-encoding,
connection and keep-alive are stripped while a location header beginning
with the backend's own origin is rewritten to the /vscode/{session_id}
prefix (exactly, when the origin does not also occur later in the
value, since str.replace replaces every occurrence). -/
theorem proxy_forwarding_and_header_rewrite (sid path : String)
    (req : ProxyRequest) (backend : Except ReqErr BackendResp) :
    proxyToVscode none sid path req backend = .error 503
    ∧ ∀ (i : VInst) (resp : BackendResp) (r : ProxyResult),
        proxyToVscode (some i) sid path req (.ok resp) = .ok r →
        r.targetUrl = "http://127.0.0.1:" ++ toString i.port ++ "/" ++ path
            ++ (if req.queryString ≠ "" then "?" ++ req.queryString else "")
        ∧ lookupHeader "host" r.fwdHeaders = none
        ∧ r.followRedirects = false
        ∧ r.statusCode = resp.statusCode
        ∧ lookupHeader "transfer-encoding" r.respHeaders = none
        ∧ lookupHeader "connection" r.respHeaders = none
        ∧ lookupHeader "keep-alive" r.respHeaders = none
        ∧ ∀ loc rest, lookupHeader "location" resp.headers = some loc →
            loc.data = (backendOrigin i.port).data ++ rest →
            hasSub (backendOrigin i.port).data rest = false →
            lookupHeader "location" r.respHeaders
              = some (String.mk (("/vscode/" ++ sid).data ++ rest)) := by
  refine ⟨rfl, ?_⟩
  intro i resp r h
  simp only [proxyToVscode] at h
  injection h with h
  subst h
  refine ⟨rfl, ?_, rfl, rfl, ?_, ?_, ?_, ?_⟩
  · exact lookupHeader_filter_drop "host" _
      (by intro p hp; simp [hp]) req.headers
  · exact lookupHeader_filter_drop "transfer-encoding" _
      (by intro p hp; simp [hp]) _
  · exact lookupHeader_filter_drop "connection" _
      (by intro p hp; simp [hp]) _
  · exact lookupHeader_filter_drop "keep-alive" _
      (by intro p hp; simp [hp]) _
  · intro loc rest hloc hdata hno
    have hp : (backendOrigin i.port).data ≠ [] := by
      unfold backendOrigin
      rw [String.data_append]
      intro hnil
      rcases List.append_eq_nil.mp hnil with ⟨h1, _⟩
      have hne : ("http://127.0.0.1:").data ≠ [] := by decide
      exact hne h1
    have hno' := no_match_of_hasSub_false _ rest hp hno
    have hsw : pyStartsWith loc (backendOrigin i.port) = true := by
      unfold pyStartsWith
      rw [hdata]
      exact isPrefixOf_self_append _ _
    have hrepl : pyReplace loc (backendOrigin i.port) ("/vscode/" ++ sid)
        = String.mk (("/vscode/" ++ sid).data ++ rest) := by
      unfold pyReplace
      rw [hdata]
      rw [replaceAllGo_front _ _ _ hp hno' _ ?hfuel]
      case hfuel =>
        rw [List.length_append]
        have hpos := List.length_pos.mpr hp
        omega
    have hrw : rewriteLocation i.port sid resp.headers
        = setHeader "location" (String.mk (("/vscode/" ++ sid).data ++ rest))
            resp.headers := by
      simp [rewriteLocation, hloc, hsw, hrepl]
    show lookupHeader "location"
        (stripHopByHop (rewriteLocation i.port sid resp.headers))
      = some (String.mk (("/vscode/" ++ sid).data ++ rest))
    rw [hrw]
    unfold stripHopByHop
    rw [lookupHeader_filter_keep "location" _ (by intro p hp'; simp [hp']) _]
    unfold lookupHeader setHeader
    exact alLookup_alSet_self _ _ _

/-- Witness for C8 on a concrete redirect response through a live
instance on port 8766. -/
theorem proxy_forwarding_witness :
    proxyToVscode (some ⟨"s1", 8766, "/w", true⟩) "s1" "login"
        ⟨"GET", [("host", "example.com"), ("accept", "text/html")], "", []⟩
        (.ok ⟨302, [("location", "http://127.0.0.1:8766/login"),
                    ("transfer-encoding", "chunked")]⟩)
      = .ok ⟨"http://127.0.0.1:8766/login", [("accept", "text/html")], none,
             false, 302, [("location", "/vscode/s1/login")]⟩
    ∧ lookupHeader "location"
        ([("location", "/vscode/s1/login")] : List (String × String))
      = some "/vscode/s1/login"
    ∧ lookupHeader "location"
        ((⟨"http://127.0.0.1:8766/login", [("accept", "text/html")], none,
           false, 302, [("location", "/vscode/s1/login")]⟩ : ProxyResult).respHeaders)
      = some (String.mk (("/vscode/" ++ "s1").data ++ "/login".data)) := by
  refine ⟨rfl, by decide, ?_⟩
  exact ((proxy_forwarding_and_header_rewrite "s1" "login"
      ⟨"GET", [("host", "example.com"), ("accept", "text/html")], "", []⟩
      (.ok ⟨302, [("location", "http://127.0.0.1:8766/login"),
                  ("transfer-encoding", "chunked")]⟩)).2
    ⟨"s1", 8766, "/w", true⟩
    ⟨302, [("location", "http://127.0.0.1:8766/login"),
           ("transfer-encoding", "chunked")]⟩
    ⟨"http://127.0.0.1:8766/login", [("accept", "text/html")], none,
     false, 302, [("location", "/vscode/s1/login")]⟩
    rfl).2.2.2.2.2.2.2 "http://127.0.0.1:8766/login" "/login".data
    (by decide) (by decide) (by decide)

/-- C6: with a topic set, a timer fire past the cooldown whose cleaned
buffer text is long enough emits exactly one notification carrying the
label of the first matching pattern of the ordered waiting-for-input
list (generic default when none match), stamps the notification time and
clears the buffer; a fire within the cooldown emits nothing and also
clears the buffer; hence a second burst whose timer fires within the
cooldown window after an emission emits zero notifications. -/
theorem notification_debounce_fire (st : NotifyState) (now : Int) (topic : String)
    (htopic : st.ntfyTopic = some topic) :
    (st.cooldown ≤ now - st.lastNotificationTime →
      5 ≤ (cleanText st.buffer).length →
      checkAndNotify now st
        = ⟨some (classifyMessage (cleanText st.buffer)),
           ⟨st.ntfyTopic, [], now, st.cooldown⟩⟩)
    ∧ (now - st.lastNotificationTime < st.cooldown →
      checkAndNotify now st
        = ⟨none, ⟨st.ntfyTopic, [], st.lastNotificationTime, st.cooldown⟩⟩)
    ∧ (∀ buf2 now2, st.cooldown ≤ now - st.lastNotificationTime →
      5 ≤ (cleanText st.buffer).length →
      now2 - now < st.cooldown →
      (checkAndNotify now2
        ⟨(checkAndNotify now st).state.ntfyTopic, buf2,
         (checkAndNotify now st).state.lastNotificationTime,
         (checkAndNotify now st).state.cooldown⟩).sent = none) := by
  refine ⟨?_, ?_, ?_⟩
  · intro h1 h2
    simp only [checkAndNotify, htopic]
    rw [if_neg (by omega), if_neg (by omega)]
  · intro h1
    simp only [checkAndNotify, htopic]
    rw [if_pos h1]
  · intro buf2 now2 h1 h2 h3
    have hfirst : checkAndNotify now st
        = ⟨some (classifyMessage (cleanText st.buffer)),
           ⟨st.ntfyTopic, [], now, st.cooldown⟩⟩ := by
      simp only [checkAndNotify, htopic]
      rw [if_neg (by omega), if_neg (by omega)]
    rw [hfirst]
    simp only [checkAndNotify, htopic]
    rw [if_pos (by omega)]

/-- Witness for C6: the example fires exactly one confirmation-prompt
notification and a second fire 2 seconds later (within the 3-second
cooldown) fires none. -/
theorem notification_debounce_fire_witness :
    ((3 : Int) ≤ 10 - 0) ∧ (5 ≤ (cleanText notifyExampleState.buffer).length) ∧
    checkAndNotify 10 notifyExampleState
      = ⟨some "Claude needs confirmation", ⟨some "t", [], 10, 3⟩⟩ ∧
    (checkAndNotify 12
      ⟨(checkAndNotify 10 notifyExampleState).state.ntfyTopic,
       "Proceed? [Y/n] ".data,
       (checkAndNotify 10 notifyExampleState).state.lastNotificationTime,
       (checkAndNotify 10 notifyExampleState).state.cooldown⟩).sent = none := by
  refine ⟨by decide, by decide, ?_, ?_⟩
  · exact ((notification_debounce_fire notifyExampleState 10 "t" rfl).1
      (by decide) (by decide)).trans (by decide)
  · exact (notification_debounce_fire notifyExampleState 10 "t" rfl).2.2
      ("Proceed? [Y/n] ".data) 12 (by decide) (by decide) (by decide)
